import Mathlib

/-!
Verification development for the markdown-to-PDF report engine in app.py
(function create_report_pdf and endpoint download_pdf).

The Python source is shallowly embedded: the line-by-line markdown parsing
loop, the inline bold/italic regex rewriting, the table accumulation state,
the default-disclaimer injection, and the error-fallback structure are
translated into executable Lean definitions.  External effects (ReportLab's
doc.build producing PDF bytes) are modelled as oracle functions of type
List Flowable -> Except String String supplied as parameters; everything
the Python code computes itself is computed here.
-/

namespace App

/-- Characters stripped by Python str.strip() (ASCII whitespace set). -/
def isPyWS (c : Char) : Bool :=
  c = ' ' || c = '\t' || c = '\n' || c = '\r' || c = '\x0b' || c = '\x0c'

/-- Python s.strip(): drop whitespace from both ends. -/
def pyStrip (s : String) : String :=
  String.mk (((s.toList.dropWhile isPyWS).reverse.dropWhile isPyWS).reverse)

/-- Python s.split(sep) for a single-character separator. -/
def splitChar (sep : Char) : List Char → List (List Char)
  | [] => [[]]
  | c :: rest =>
    let r := splitChar sep rest
    if c = sep then [] :: r
    else
      match r with
      | h :: t => (c :: h) :: t
      | [] => [[c]]

/-- Python s.startswith(p). -/
def strStartsWith (s p : String) : Bool := p.toList.isPrefixOf s.toList

/-- Python s.endswith(p). -/
def strEndsWith (s p : String) : Bool := p.toList.isSuffixOf s.toList

/-- Python p in s (substring containment), on char lists. -/
def subListIn (needle : List Char) : List Char → Bool
  | [] => needle.isEmpty
  | c :: rest => needle.isPrefixOf (c :: rest) || subListIn needle rest

/-- Python needle in hay (substring containment). -/
def strContains (hay needle : String) : Bool := subListIn needle.toList hay.toList

/-- Split a char list at the first occurrence of the pattern: returns the
part before the pattern and the part after it, or none when absent. -/
def splitSeq (pat : List Char) : List Char → Option (List Char × List Char)
  | [] => none
  | c :: rest =>
    if pat.isPrefixOf (c :: rest) then some ([], (c :: rest).drop pat.length)
    else (splitSeq pat rest).map (fun p => (c :: p.1, p.2))

/-- One left-to-right pass of Python re.sub(r'\*\*(.*?)\*\*', r'<b>\1</b>', s):
at a double asterisk, the non-greedy body runs to the earliest later double
asterisk; on no match the engine advances one character.  The fuel argument
(always instantiated with the list length) only makes the recursion
structural; each step consumes at least one character. -/
def boldSubAux : Nat → List Char → List Char
  | 0, cs => cs
  | fuel + 1, '*' :: '*' :: rest =>
    match splitSeq ['*', '*'] rest with
    | some (content, after) =>
      '<' :: 'b' :: '>' :: (content ++ '<' :: '/' :: 'b' :: '>' :: boldSubAux fuel after)
    | none => '*' :: boldSubAux fuel ('*' :: rest)
  | fuel + 1, c :: rest => c :: boldSubAux fuel rest
  | _ + 1, [] => []

/-- One left-to-right pass of Python re.sub(r'\*(.*?)\*', r'<i>\1</i>', s). -/
def italicSubAux : Nat → List Char → List Char
  | 0, cs => cs
  | fuel + 1, '*' :: rest =>
    match splitSeq ['*'] rest with
    | some (content, after) =>
      '<' :: 'i' :: '>' :: (content ++ '<' :: '/' :: 'i' :: '>' :: italicSubAux fuel after)
    | none => '*' :: italicSubAux fuel rest
  | fuel + 1, c :: rest => c :: italicSubAux fuel rest
  | _ + 1, [] => []

/-- re.sub(r'\*\*(.*?)\*\*', r'<b>\1</b>', s). -/
def boldSub (s : String) : String := String.mk (boldSubAux s.toList.length s.toList)

/-- re.sub(r'\*(.*?)\*', r'<i>\1</i>', s). -/
def italicSub (s : String) : String := String.mk (italicSubAux s.toList.length s.toList)

/-- The two-pass inline emphasis rewriting used throughout create_report_pdf:
first the double-asterisk bold substitution, then the single-asterisk italic
substitution on its result. -/
def formatInline (s : String) : String := italicSub (boldSub s)

/-- A styled text fragment, as ReportLab interprets b and i markup tags. -/
inductive Span where
  | plain (s : String)
  | bold (s : String)
  | italic (s : String)
deriving DecidableEq, Repr

/-- Prepend one plain character to a span list, merging with a leading
plain span. -/
def consPlainChar (c : Char) : List Span → List Span
  | .plain s :: t => .plain (String.mk (c :: s.toList)) :: t
  | spans => .plain (String.mk [c]) :: spans

/-- Interpret b / i markup tags in a string as styled spans (the reading
ReportLab's Paragraph gives to the markup produced by the two regex passes).
Fuel is instantiated with the list length. -/
def spansAux : Nat → List Char → List Span
  | 0, _ => []
  | fuel + 1, '<' :: 'b' :: '>' :: rest =>
    (match splitSeq ['<', '/', 'b', '>'] rest with
     | some (content, after) => .bold (String.mk content) :: spansAux fuel after
     | none => consPlainChar '<' (spansAux fuel ('b' :: '>' :: rest)))
  | fuel + 1, '<' :: 'i' :: '>' :: rest =>
    (match splitSeq ['<', '/', 'i', '>'] rest with
     | some (content, after) => .italic (String.mk content) :: spansAux fuel after
     | none => consPlainChar '<' (spansAux fuel ('i' :: '>' :: rest)))
  | fuel + 1, c :: rest => consPlainChar c (spansAux fuel rest)
  | _ + 1, [] => []

/-- The span sequence denoted by a markup string. -/
def spansOfMarkup (s : String) : List Span := spansAux s.toList.length s.toList

/-- A table cell: a ReportLab Paragraph built from markup text and a named
paragraph style (the style objects of the source carry only data consumed by
the layout engine, so they are identified by their name here). -/
structure Cell where
  text : String
  style : String
deriving DecidableEq, Repr

/-- One ReportLab flowable as built by create_report_pdf: a Paragraph
(markup text, style name, optional bulletText), a Spacer (height in
hundredths of an inch), or a Table of cell rows. -/
inductive Flowable where
  | para (text : String) (style : String) (bulletText : Option String)
  | spacer (h : Nat)
  | table (data : List (List Cell))
deriving DecidableEq, Repr

/-- Whether a flowable is a Table. -/
def Flowable.isTable : Flowable → Bool
  | .table _ => true
  | _ => false

/-- State of the parsing loop of create_report_pdf: the flowables list, the
current_table_data buffer, and the in_table flag. -/
structure ParseState where
  flowables : List Flowable
  tableData : List (List Cell)
  inTable : Bool
deriving DecidableEq, Repr

/-- line.startswith('|') and line.endswith('|'): the table-row test. -/
def isTableLine (line : String) : Bool :=
  strStartsWith line "|" && strEndsWith line "|"

/-- cells = [cell.strip() for cell in line.split('|')[1:-1]]. -/
def rowCells (line : String) : List String :=
  (((splitChar '|' line.toList).drop 1).dropLast).map (fun cs => pyStrip (String.mk cs))

/-- c.strip().replace('-', '').replace(':', '').replace(' ', ''): each
replace removes every occurrence of its character, so it is a filter. -/
def stripSepChars (c : String) : List Char :=
  (((pyStrip c).toList.filter (fun ch => !(ch = '-'))).filter
      (fun ch => !(ch = ':'))).filter (fun ch => !(ch = ' '))

/-- A separator row: every cell becomes empty after stripping '-', ':',
and spaces. -/
def isSeparatorCells (cells : List String) : Bool :=
  cells.all (fun c => (stripSepChars c).isEmpty)

/-- A table cell Paragraph: bold then italic substitution on the cell text,
with the TableBody style. -/
def mkCell (c : String) : Cell := ⟨formatInline c, "TableBody"⟩

/-- The header restyling of table finalization: Paragraph(f"<b>{cell.text}</b>",
header_style) for each cell of the first buffered row. -/
def boldHeaderCell (c : Cell) : Cell := ⟨"<b>" ++ c.text ++ "</b>", "TableHeader"⟩

/-- Table finalization (the body of the end-of-table branch).  On a
non-empty buffer the first row is restyled as a bold header and a Table plus
trailing Spacer are emitted; the condition on the if models what ReportLab
accepts (a positive column count and rectangular data: with zero columns the
column-width computation divides by zero, and with ragged rows the Table
constructor raises), and its failure takes the except branch which degrades
each buffered row to a Paragraph of its cell texts joined by " | ". -/
def finalizeTable (data : List (List Cell)) : List Flowable :=
  match data with
  | [] => []
  | header :: rest =>
    if 0 < header.length && rest.all (fun r => r.length = header.length) then
      [Flowable.table ((header.map boldHeaderCell) :: rest), Flowable.spacer 10]
    else
      (header :: rest).map
        (fun row => Flowable.para (String.intercalate " | " (row.map Cell.text)) "CustomBody" none)

/-- re.match(r'^\d+\. ', line): a non-empty run of leading digits followed
by a period and a space. -/
def isNumberedLine (line : String) : Bool :=
  let ds := line.toList.takeWhile Char.isDigit
  !ds.isEmpty && ['.', ' '].isPrefixOf (line.toList.drop ds.length)

/-- number = line.split('.')[0]; the emitted bullet text is f"{number}.". -/
def numMarker (line : String) : String :=
  String.mk (line.toList.takeWhile (fun c => !(c = '.'))) ++ "."

/-- Length of the prefix removed by re.sub(r'^\d+\. ', '', line). -/
def numPrefixLen (line : String) : Nat :=
  (line.toList.takeWhile Char.isDigit).length + 2

/-- Python line[n:] on characters. -/
def strDrop (line : String) (n : Nat) : String := String.mk (line.toList.drop n)

/-- The classification chain of the parsing loop for a non-blank line that
is not a table row and does not end a table: headings (no emphasis
substitution, whole text wrapped in a bold tag), bullets, numbered items,
disclaimer lines (no emphasis substitution, wrapped in an italic tag), and
body text; first match wins, in source order. -/
def lineFlowables (line : String) : List Flowable :=
  if strStartsWith line "# " then
    [.para ("<b>" ++ pyStrip (strDrop line 2) ++ "</b>") "CustomH1" none]
  else if strStartsWith line "## " then
    [.para ("<b>" ++ pyStrip (strDrop line 3) ++ "</b>") "CustomH2" none]
  else if strStartsWith line "### " then
    [.para ("<b>" ++ pyStrip (strDrop line 4) ++ "</b>") "CustomH3" none]
  else if strStartsWith line "* " || strStartsWith line "- " then
    [.para (formatInline (pyStrip (strDrop line 2))) "CustomBullet" (some "•")]
  else if isNumberedLine line then
    [.para (formatInline (pyStrip (strDrop line (numPrefixLen line)))) "CustomNumber"
      (some (numMarker line))]
  else if strStartsWith line "Disclaimer:" || strStartsWith line "अस्वीकरण:" then
    [.para ("<i>" ++ line ++ "</i>") "CustomDisclaimer" none]
  else
    let processed := formatInline line
    if pyStrip processed = "" then [] else [.para processed "CustomBody" none]

/-- One iteration of the parsing loop of create_report_pdf.  The line is
stripped; blank lines are skipped; a table row enters or extends the table
buffer (separators dropped, entering resets the buffer); any other line
while in_table finalizes the table and is itself consumed by that branch of
the elif chain; otherwise the line is classified and emitted. -/
def stepLine (st : ParseState) (rawLine : String) : ParseState :=
  let line := pyStrip rawLine
  if line = "" then st
  else if isTableLine line then
    let st2 := if st.inTable then st else { st with inTable := true, tableData := [] }
    let cells := rowCells line
    if isSeparatorCells cells then st2
    else { st2 with tableData := st2.tableData ++ [cells.map mkCell] }
  else if st.inTable then
    { st with
        inTable := false
        tableData := []
        flowables := st.flowables ++ finalizeTable st.tableData }
  else { st with flowables := st.flowables ++ lineFlowables line }

/-- The fixed PDF header flowables (title, prepared-for, location, spacer),
chosen by language. -/
def headerFlowables (name location language : String) : List Flowable :=
  (if language = "hindi" then
    [Flowable.para "<b>पेशेवर भूमि उपयोग रिपोर्ट</b>" "CustomH1" none,
     Flowable.para ("<b>तैयार की गई: " ++ name ++ "</b>") "CustomH3" none,
     Flowable.para ("<b>स्थान: " ++ location ++ "</b>") "CustomH3" none]
  else
    [Flowable.para "<b>Professional Land Use Report</b>" "CustomH1" none,
     Flowable.para ("<b>Prepared for: " ++ name ++ "</b>") "CustomH3" none,
     Flowable.para ("<b>Location: " ++ location ++ "</b>") "CustomH3" none])
  ++ [Flowable.spacer 25]

/-- Models Python str(flowable) as scanned by the default-disclaimer check:
the repr of a ReportLab Paragraph dumps its attributes, which include the
raw markup text and the style (whose repr shows the style name); a Table
repr shows its cell values; a Spacer repr shows neither. -/
def flowableStr : Flowable → String
  | .para t s _ => s ++ " " ++ t
  | .spacer _ => "Spacer"
  | .table data =>
    "Table " ++ String.join (data.map (fun row => String.join (row.map (fun c => c.style ++ " " ++ c.text))))

/-- 'Disclaimer' in str(flowable) or 'अस्वीकरण' in str(flowable). -/
def containsMarker (f : Flowable) : Bool :=
  strContains (flowableStr f) "Disclaimer" || strContains (flowableStr f) "अस्वीकरण"

/-- The locale-default disclaimer Paragraph appended when no flowable
mentions a disclaimer. -/
def defaultDisclaimer (language : String) : Flowable :=
  .para
    (if language = "hindi" then
      "<i>अस्वीकरण: यह रिपोर्ट केवल सूचनात्मक उद्देश्यों के लिए है। किसी भी निवेश निर्णय लेने से पहले कृपया स्थानीय जोनिंग अधिकारियों, वित्तीय सलाहकारों और कानूनी पेशेवरों से परामर्श करें।</i>"
    else
      "<i>Disclaimer: This report is for informational purposes only. Please consult with local zoning authorities, financial advisors, and legal professionals before making any investment decisions.</i>")
    "CustomDisclaimer" none

/-- The default-disclaimer injection: if no flowable's textual dump contains
'Disclaimer' or 'अस्वीकरण', append a spacer and the locale default. -/
def injectDisclaimer (language : String) (fls : List Flowable) : List Flowable :=
  if fls.any containsMarker then fls
  else fls ++ [Flowable.spacer 20, defaultDisclaimer language]

/-- markdown_text.split('\n'). -/
def splitLines (md : String) : List String :=
  (splitChar '\n' md.toList).map (fun cs => String.mk cs)

/-- Initial loop state: the header flowables, empty table buffer, not in a
table. -/
def initState (name location language : String) : ParseState :=
  ⟨headerFlowables name location language, [], false⟩

/-- The flowables produced by the parsing loop (before disclaimer
injection).  Note the loop has no end-of-input finalization: a table buffer
still open when the lines run out is simply dropped. -/
def baseFlowables (md name location language : String) : List Flowable :=
  (List.foldl stepLine (initState name location language) (splitLines md)).flowables

/-- The complete flowables list handed to doc.build for the primary path. -/
def createFlowables (md name location language : String) : List Flowable :=
  injectDisclaimer language (baseFlowables md name location language)

/-- The error message of the ValueError raised on empty or whitespace-only
markdown input inside create_report_pdf. -/
def emptyMdMsg : String := "No markdown content provided for PDF generation"

/-- The fixed explanation paragraph of the fallback error PDF. -/
def fallbackExplanation : String :=
  "An error occurred while trying to create your PDF report. This usually means the font files are missing or the markdown from the AI was malformed."

/-- The bytes written when even the fallback error PDF fails to build. -/
def placeholderBytes : String := "CRITICAL ERROR: Could not generate any PDF."

/-- The flowables of the fallback error PDF: title, plain-language
explanation, error message, debug context (name, location, language), and
the full traceback with newlines turned into br tags. -/
def errorFlowables (e name location language tb : String) : List Flowable :=
  [.para "PDF Generation Failed" "ErrorTitle" none,
   .para fallbackExplanation "ErrorNormal" none,
   .para "Error Details:" "Heading2" none,
   .para e "ErrorNormal" none,
   .para "Debug Info:" "Heading2" none,
   .para ("Name: " ++ name ++ ", Location: " ++ location ++ ", Language: " ++ language)
     "ErrorNormal" none,
   .para "Full Traceback:" "Heading3" none,
   .para (tb.replace "\n" "<br/>\n") "ErrorCode" none]

/-- The primary rendering path of create_report_pdf: reject empty or
whitespace-only markdown with the ValueError, otherwise build the flowables
and hand them to doc.build (the external layout engine, modelled by the
layout oracle, which yields bytes or a failure message). -/
def primaryResult (layout : List Flowable → Except String String)
    (md name location language : String) : Except String String :=
  if md = "" ∨ pyStrip md = "" then .error emptyMdMsg
  else layout (createFlowables md name location language)

/-- The except branch of create_report_pdf: build the fallback error PDF
(its doc.build modelled by the fallbackLayout oracle, and
traceback.format_exc() by the traceOf oracle applied to the error message);
if that also fails, return the placeholder bytes. -/
def fallbackResult (fallbackLayout : List Flowable → Except String String)
    (traceOf : String → String) (e name location language : String) : String :=
  match fallbackLayout (errorFlowables e name location language (traceOf e)) with
  | .ok bytes => bytes
  | .error _ => placeholderBytes

/-- create_report_pdf: run the primary path; on any failure take the
fallback path.  Every branch returns bytes: no exception escapes. -/
def create_report_pdf (layout fallbackLayout : List Flowable → Except String String)
    (traceOf : String → String) (md name location language : String) : String :=
  match primaryResult layout md name location language with
  | .ok bytes => bytes
  | .error e => fallbackResult fallbackLayout traceOf e name location language

/-- A JSON / Python value as found in the request body. -/
inductive PyVal where
  | none
  | str (s : String)
  | int (n : Int)
  | bool (b : Bool)
  | list (l : List PyVal)

/-- Python truthiness of a request value. -/
def PyVal.truthy : PyVal → Bool
  | .none => false
  | .str s => !(s = "")
  | .int n => !(n = 0)
  | .bool b => b
  | .list l => !l.isEmpty

/-- isinstance(v, str). -/
def PyVal.isStr : PyVal → Bool
  | .str _ => true
  | _ => false

/-- The string content of a value known to be a string. -/
def PyVal.asStr : PyVal → String
  | .str s => s
  | _ => ""

/-- f-string coercion of a request value (list repr abbreviated: no claim
renders a non-string name, location, or language). -/
def PyVal.toStr : PyVal → String
  | .str s => s
  | .none => "None"
  | .int n => toString n
  | .bool b => if b then "True" else "False"
  | .list _ => "[...]"

/-- data.get(key, default): first binding of the key, or the default. -/
def pyGet (d : List (String × PyVal)) (key : String) (dflt : PyVal) : PyVal :=
  (d.lookup key).getD dflt

/-- name = data.get('name', 'User'). -/
def nameOf (d : List (String × PyVal)) : String := (pyGet d "name" (.str "User")).toStr

/-- location = data.get('location', 'Not Specified'). -/
def locationOf (d : List (String × PyVal)) : String :=
  (pyGet d "location" (.str "Not Specified")).toStr

/-- language = data.get('language', 'english'). -/
def languageOf (d : List (String × PyVal)) : String :=
  (pyGet d "language" (.str "english")).toStr

/-- The download filename chosen by language. -/
def filenameOf (d : List (String × PyVal)) : String :=
  if languageOf d = "hindi" then "भूमि_रिपोर्ट.pdf" else "AI_Land_Report.pdf"

/-- A response of the download_pdf endpoint: a 400 validation rejection, or
a file download carrying the PDF bytes. -/
inductive HttpResponse where
  | json400 (msg : String)
  | file (bytes : String) (filename : String)
deriving DecidableEq, Repr

/-- The download_pdf endpoint.  A missing or empty JSON body is rejected;
a falsy or non-string markdown_text is rejected with a 400 before
create_report_pdf is ever called; otherwise the PDF bytes are returned with
send_file.  (The buffer-is-None recheck of the source is unreachable, a
BytesIO being always truthy, and the surrounding catch-all except cannot
fire here since create_report_pdf returns on every input.) -/
def download_pdf (layout fallbackLayout : List Flowable → Except String String)
    (traceOf : String → String) (d : List (String × PyVal)) : HttpResponse :=
  if d.isEmpty then .json400 "No JSON data received"
  else
    let mdv := pyGet d "markdown_text" PyVal.none
    if !mdv.truthy || !mdv.isStr then .json400 "Invalid or missing markdown_text"
    else
      .file
        (create_report_pdf layout fallbackLayout traceOf mdv.asStr (nameOf d) (locationOf d)
          (languageOf d))
        (filenameOf d)

/-! Shared lemmas about the parsing loop. -/

theorem isTableLine_empty : isTableLine "" = false := by decide

/-- A blank line is skipped by the loop. -/
theorem stepLine_blank (st : ParseState) (l : String) (h : pyStrip l = "") :
    stepLine st l = st := by
  unfold stepLine
  simp [h]

/-- A table-row line never changes the flowables list. -/
theorem stepLine_table_flowables (st : ParseState) (l : String)
    (h : isTableLine (pyStrip l) = true) :
    (stepLine st l).flowables = st.flowables := by
  obtain ⟨fls, td, it⟩ := st
  have hne : ¬(pyStrip l = "") := fun he => by rw [he] at h; exact absurd h (by decide)
  unfold stepLine
  simp only [if_neg hne, h, if_pos]
  cases it <;> by_cases hs : isSeparatorCells (rowCells (pyStrip l)) = true <;>
    simp [hs]

/-- A table-row line while in a table keeps in_table set. -/
theorem stepLine_table_inTable (st : ParseState) (l : String)
    (h : isTableLine (pyStrip l) = true) (hin : st.inTable = true) :
    (stepLine st l).inTable = true := by
  obtain ⟨fls, td, it⟩ := st
  have hne : ¬(pyStrip l = "") := fun he => by rw [he] at h; exact absurd h (by decide)
  unfold stepLine
  simp only [if_neg hne, h, if_pos]
  simp only at hin
  subst hin
  by_cases hs : isSeparatorCells (rowCells (pyStrip l)) = true <;> simp [hs]

/-- The rows a run of table-row lines adds to the buffer: separator rows
dropped, the rest turned into rows of formatted cells. -/
def tableBuf (ls : List String) : List (List Cell) :=
  (ls.filter (fun l => !(isSeparatorCells (rowCells (pyStrip l))))).map
    (fun l => (rowCells (pyStrip l)).map mkCell)

theorem tableBuf_nil : tableBuf [] = [] := rfl

theorem finalizeTable_cons (header : List Cell) (rest : List (List Cell)) :
    finalizeTable (header :: rest) =
      if 0 < header.length && rest.all (fun r => r.length = header.length) then
        [Flowable.table ((header.map boldHeaderCell) :: rest), Flowable.spacer 10]
      else
        (header :: rest).map
          (fun row =>
            Flowable.para (String.intercalate " | " (row.map Cell.text)) "CustomBody" none) :=
  rfl

theorem tableBuf_cons (l : String) (ls : List String) :
    tableBuf (l :: ls) = tableBuf [l] ++ tableBuf ls := by
  by_cases hs : isSeparatorCells (rowCells (pyStrip l)) = true <;>
    simp [tableBuf, List.filter_cons, hs]

/-- A table-row line while already in a table appends to the buffer exactly
the rows of tableBuf of the single line. -/
theorem stepLine_table_step (st : ParseState) (l : String)
    (h : isTableLine (pyStrip l) = true) (hin : st.inTable = true) :
    stepLine st l = { st with tableData := st.tableData ++ tableBuf [l] } := by
  obtain ⟨fls, td, it⟩ := st
  simp only at hin
  subst hin
  have hne : ¬(pyStrip l = "") := fun he => by rw [he] at h; exact absurd h (by decide)
  unfold stepLine
  simp only [if_neg hne, h, if_pos]
  by_cases hs : isSeparatorCells (rowCells (pyStrip l)) = true <;>
    simp [hs, tableBuf, List.filter_cons]

/-- A table-row line from the scanning state enters the table with a fresh
buffer holding tableBuf of that line. -/
theorem stepLine_table_enter (st : ParseState) (l : String)
    (h : isTableLine (pyStrip l) = true) (hin : st.inTable = false) :
    stepLine st l = { st with inTable := true, tableData := tableBuf [l] } := by
  obtain ⟨fls, td, it⟩ := st
  simp only at hin
  subst hin
  have hne : ¬(pyStrip l = "") := fun he => by rw [he] at h; exact absurd h (by decide)
  unfold stepLine
  simp only [if_neg hne, h, if_pos]
  by_cases hs : isSeparatorCells (rowCells (pyStrip l)) = true <;>
    simp [hs, tableBuf, List.filter_cons]

/-- A non-blank, non-table line while in a table takes the end-of-table
branch: the table is finalized, the state returns to scanning, and the line
itself is consumed by that branch of the elif chain (nothing else is
emitted for it). -/
theorem stepLine_finalize (st : ParseState) (l : String)
    (hne : pyStrip l ≠ "") (ht : isTableLine (pyStrip l) = false) (hin : st.inTable = true) :
    stepLine st l =
      { st with
          inTable := false
          tableData := []
          flowables := st.flowables ++ finalizeTable st.tableData } := by
  unfold stepLine
  simp only [if_neg hne, ht, Bool.false_eq_true, if_false, hin, if_pos]

/-- Folding the loop over a run of table-row lines, starting inside a
table, only extends the buffer with tableBuf of those lines. -/
theorem foldl_table_lines (ls : List String) :
    ∀ st : ParseState, st.inTable = true →
      (∀ l ∈ ls, isTableLine (pyStrip l) = true) →
      List.foldl stepLine st ls = { st with tableData := st.tableData ++ tableBuf ls } := by
  induction ls with
  | nil =>
    intro st _ _
    obtain ⟨fls, td, it⟩ := st
    simp [tableBuf]
  | cons l ls ih =>
    intro st hin h
    have hl := h l (List.mem_cons_self l ls)
    rw [List.foldl_cons, stepLine_table_step st l hl hin,
      ih _ (by simpa using hin) (fun x hx => h x (List.mem_cons_of_mem l hx))]
    obtain ⟨fls, td, it⟩ := st
    rw [tableBuf_cons l ls]
    simp [List.append_assoc]

/-- Folding the loop over lines that are all blank or table rows never
changes the flowables list (in particular no Table flowable is emitted). -/
theorem foldl_table_blank_flowables (ls : List String) :
    ∀ st : ParseState,
      (∀ l ∈ ls, pyStrip l = "" ∨ isTableLine (pyStrip l) = true) →
      (List.foldl stepLine st ls).flowables = st.flowables := by
  induction ls with
  | nil => intro st _; rfl
  | cons l ls ih =>
    intro st h
    rw [List.foldl_cons]
    rw [ih _ (fun x hx => h x (List.mem_cons_of_mem l hx))]
    rcases h l (List.mem_cons_self l ls) with hb | ht
    · rw [stepLine_blank st l hb]
    · exact stepLine_table_flowables st l ht

/-! Character and list lemmas for the numbered-item classification. -/

theorem toList_mk (cs : List Char) : (String.mk cs).toList = cs := rfl

theorem digit_ne (c x : Char) (hc : c.isDigit = true) (hx : x.isDigit = false) : c ≠ x := by
  intro he
  rw [he] at hc
  rw [hx] at hc
  exact absurd hc (by decide)

theorem digit_beq_false (c x : Char) (hc : c.isDigit = true) (hx : x.isDigit = false) :
    (x == c) = false :=
  beq_eq_false_iff_ne.mpr (digit_ne c x hc hx).symm

theorem isPrefixOf_false_head (x d : Char) (xs ds : List Char) (hne : (x == d) = false) :
    List.isPrefixOf (x :: xs) (d :: ds) = false := by
  simp [List.isPrefixOf, hne]

theorem takeWhile_append_stop (p : Char → Bool) (l1 l2 : List Char) (x : Char)
    (h1 : ∀ c ∈ l1, p c = true) (hx : p x = false) :
    (l1 ++ x :: l2).takeWhile p = l1 := by
  induction l1 with
  | nil => simp [List.takeWhile_cons, hx]
  | cons c cs ih =>
    rw [List.cons_append, List.takeWhile_cons, h1 c (List.mem_cons_self c cs)]
    simp only [if_true]
    rw [ih (fun a ha => h1 a (List.mem_cons_of_mem c ha))]

theorem drop_two_after (l1 l2 : List Char) (a b : Char) :
    (l1 ++ a :: b :: l2).drop (l1.length + 2) = l2 := by
  have h : l1 ++ a :: b :: l2 = (l1 ++ [a, b]) ++ l2 := by
    rw [List.append_assoc]
    rfl
  rw [h]
  have hl : (l1 ++ [a, b]).length = l1.length + 2 := by simp
  rw [← hl]
  exact List.drop_left _ _

/-! Claim theorems. -/

/-- C1 counterexample: in the input with two table rows followed by the
non-table line "Hello", the claim says the triggering line is reprocessed
normally after finalization, which would emit the body paragraph that
lineFlowables assigns to "Hello"; but the output contains no such
paragraph — the triggering line is consumed by the finalization branch. -/
theorem c1_counterexample :
    Flowable.para "Hello" "CustomBody" none ∉
        createFlowables "| a |\n| b |\nHello" "N" "L" "english" ∧
    lineFlowables "Hello" = [Flowable.para "Hello" "CustomBody" none] := by
  constructor
  · decide
  · decide

/-- C1 amended: when a table-row run is followed by a non-blank, non-table
line, the accumulator finalizes the buffered table and returns to scanning,
but the triggering line is consumed by the finalization branch of the elif
chain: it is not reprocessed and yields no block of its own. -/
theorem c1_trigger_consumed (st : ParseState) (l : String)
    (hne : pyStrip l ≠ "") (ht : isTableLine (pyStrip l) = false) (hin : st.inTable = true) :
    stepLine st l =
      { st with
          inTable := false
          tableData := []
          flowables := st.flowables ++ finalizeTable st.tableData } :=
  stepLine_finalize st l hne ht hin

theorem c1_trigger_consumed_witness :
    stepLine ⟨[], [[⟨"a", "TableBody"⟩]], true⟩ "Hello" =
      { ParseState.mk [] [[⟨"a", "TableBody"⟩]] true with
          inTable := false
          tableData := []
          flowables := [] ++ finalizeTable [[⟨"a", "TableBody"⟩]] } :=
  c1_trigger_consumed ⟨[], [[⟨"a", "TableBody"⟩]], true⟩ "Hello" (by decide) (by decide) rfl

/-- C2 counterexample: an input whose lines are all table rows reaches the
end of input while in the InTable state, but the output contains no Table
flowable at all — the buffered rows are discarded, contradicting the
claimed end-of-input finalization. -/
theorem c2_counterexample :
    (createFlowables "| a |\n| b |" "N" "L" "english").all (fun f => !f.isTable) = true := by
  decide

/-- C2 amended: the buffered rows become a Table block only when a
following non-table line triggers finalization; when end of input is
reached while in the InTable state the buffer is silently discarded.
First part: appending any trailing run of blank or table-row lines to any
line sequence adds no flowable at all, so the rows buffered at end of input
never appear in the output.  Second part: consequently an input consisting
only of blank lines and table rows produces no Table block anywhere. -/
theorem c2_eof_discards_table (md name location language : String) (ts : List String)
    (hts : ∀ t ∈ ts, pyStrip t = "" ∨ isTableLine (pyStrip t) = true) :
    (List.foldl stepLine (initState name location language) (splitLines md ++ ts)).flowables =
      baseFlowables md name location language ∧
    ((∀ l ∈ splitLines md, pyStrip l = "" ∨ isTableLine (pyStrip l) = true) →
      (createFlowables md name location language).all (fun f => !f.isTable) = true) := by
  constructor
  · rw [List.foldl_append]
    exact foldl_table_blank_flowables ts _ hts
  · intro h
    have hbase : baseFlowables md name location language =
        headerFlowables name location language := by
      unfold baseFlowables
      rw [foldl_table_blank_flowables (splitLines md) _ h]
      rfl
    have hhdr : (headerFlowables name location language).all (fun f => !f.isTable) = true := by
      unfold headerFlowables
      split <;> simp [Flowable.isTable]
    unfold createFlowables injectDisclaimer
    rw [hbase]
    split
    · exact hhdr
    · rw [List.all_append]
      rw [hhdr]
      simp [Flowable.isTable, defaultDisclaimer]

theorem c2_eof_discards_table_witness :
    (List.foldl stepLine (initState "X" "Y" "hindi")
        (splitLines "| x |" ++ ["| a |", "| b |"])).flowables =
      baseFlowables "| x |" "X" "Y" "hindi" ∧
    ((∀ l ∈ splitLines "| x |", pyStrip l = "" ∨ isTableLine (pyStrip l) = true) →
      (createFlowables "| x |" "X" "Y" "hindi").all (fun f => !f.isTable) = true) :=
  c2_eof_discards_table "| x |" "X" "Y" "hindi" ["| a |", "| b |"] (by decide)

/-- C3: under the assumption that a successful doc.build yields non-empty
bytes (both for the primary document and for the fallback document), the
render always returns non-empty bytes — by construction it returns on every
branch, never propagating a failure; when the primary path fails, the
fallback document contains the title, the plain-language explanation, the
error message, the debug context (name, location, language), and the full
trace, and its bytes are returned; if the fallback build itself fails, the
minimal non-empty placeholder bytes are returned instead. -/
theorem c3_always_bytes (layout fallbackLayout : List Flowable → Except String String)
    (traceOf : String → String) (md name location language : String)
    (h1 : ∀ fls b, layout fls = .ok b → b ≠ "")
    (h2 : ∀ fls b, fallbackLayout fls = .ok b → b ≠ "") :
    create_report_pdf layout fallbackLayout traceOf md name location language ≠ "" ∧
    ∀ e, primaryResult layout md name location language = .error e →
      ([.para "PDF Generation Failed" "ErrorTitle" none,
        .para fallbackExplanation "ErrorNormal" none,
        .para e "ErrorNormal" none,
        .para ("Name: " ++ name ++ ", Location: " ++ location ++ ", Language: " ++ language)
          "ErrorNormal" none,
        .para ((traceOf e).replace "\n" "<br/>\n") "ErrorCode" none] ⊆
          errorFlowables e name location language (traceOf e)) ∧
      (∀ b, fallbackLayout (errorFlowables e name location language (traceOf e)) = .ok b →
        create_report_pdf layout fallbackLayout traceOf md name location language = b) ∧
      (∀ msg,
        fallbackLayout (errorFlowables e name location language (traceOf e)) = .error msg →
        create_report_pdf layout fallbackLayout traceOf md name location language =
          placeholderBytes) := by
  constructor
  · cases hp : primaryResult layout md name location language with
    | ok b =>
      have hcr : create_report_pdf layout fallbackLayout traceOf md name location language
          = b := by unfold create_report_pdf; rw [hp]
      rw [hcr]
      unfold primaryResult at hp
      split at hp
      · exact absurd hp (by simp)
      · exact h1 _ b hp
    | error e =>
      have hcr : create_report_pdf layout fallbackLayout traceOf md name location language
          = fallbackResult fallbackLayout traceOf e name location language := by
        unfold create_report_pdf; rw [hp]
      rw [hcr]
      unfold fallbackResult
      cases hf : fallbackLayout (errorFlowables e name location language (traceOf e)) with
      | ok b => exact h2 _ b hf
      | error msg => show placeholderBytes ≠ ""; decide
  · intro e hp
    have hcr : create_report_pdf layout fallbackLayout traceOf md name location language
        = fallbackResult fallbackLayout traceOf e name location language := by
      unfold create_report_pdf; rw [hp]
    refine ⟨?_, ?_, ?_⟩
    · intro f hf
      simp only [errorFlowables]
      simp only [List.mem_cons, List.not_mem_nil, or_false] at hf ⊢
      tauto
    · intro b hb
      rw [hcr]
      unfold fallbackResult
      rw [hb]
    · intro msg hm
      rw [hcr]
      unfold fallbackResult
      rw [hm]

theorem c3_always_bytes_witness :
    create_report_pdf (fun _ => Except.error "boom") (fun _ => Except.ok "FB")
      (fun _ => "tb") "x" "N" "L" "english" ≠ "" :=
  (c3_always_bytes (fun _ => Except.error "boom") (fun _ => Except.ok "FB") (fun _ => "tb")
    "x" "N" "L" "english"
    (fun _ b hb => by exact absurd hb (by simp))
    (fun _ b hb => by
      have : b = "FB" := by injection hb.symm
      subst this; decide)).1

/-- C4: a request whose markdown_text is the empty string or not a string
is rejected by the endpoint with a 400 validation response, and the result
does not depend on the layout oracles at all: create_report_pdf, and hence
the layout engine, is never invoked for such a request. -/
theorem c4_invalid_markdown_rejected
    (layout fallbackLayout : List Flowable → Except String String)
    (traceOf : String → String) (d : List (String × PyVal))
    (h : pyGet d "markdown_text" PyVal.none = PyVal.str "" ∨
      (pyGet d "markdown_text" PyVal.none).isStr = false) :
    (download_pdf layout fallbackLayout traceOf d = .json400 "No JSON data received" ∨
      download_pdf layout fallbackLayout traceOf d =
        .json400 "Invalid or missing markdown_text") ∧
    ∀ (layout2 fallbackLayout2 : List Flowable → Except String String)
      (traceOf2 : String → String),
      download_pdf layout2 fallbackLayout2 traceOf2 d =
        download_pdf layout fallbackLayout traceOf d := by
  have hcheck : ∀ L F T, download_pdf L F T d = download_pdf layout fallbackLayout traceOf d ∧
      (download_pdf layout fallbackLayout traceOf d = .json400 "No JSON data received" ∨
        download_pdf layout fallbackLayout traceOf d =
          .json400 "Invalid or missing markdown_text") := by
    intro L F T
    unfold download_pdf
    by_cases hd : d.isEmpty = true
    · simp [hd]
    · have hrej : (!(pyGet d "markdown_text" PyVal.none).truthy ||
          !(pyGet d "markdown_text" PyVal.none).isStr) = true := by
        rcases h with hs | hns
        · rw [hs]; decide
        · rw [hns]; simp
      simp [hd, hrej]
  exact ⟨(hcheck layout fallbackLayout traceOf).2, fun L F T => (hcheck L F T).1⟩

theorem c4_invalid_markdown_rejected_witness :
    download_pdf (fun _ => Except.ok "P") (fun _ => Except.ok "P") (fun _ => "t")
        [("markdown_text", PyVal.int 5)] = .json400 "No JSON data received" ∨
      download_pdf (fun _ => Except.ok "P") (fun _ => Except.ok "P") (fun _ => "t")
        [("markdown_text", PyVal.int 5)] = .json400 "Invalid or missing markdown_text" :=
  (c4_invalid_markdown_rejected (fun _ => Except.ok "P") (fun _ => Except.ok "P")
    (fun _ => "t") [("markdown_text", PyVal.int 5)] (Or.inr rfl)).1

/-- C10: a non-empty, whitespace-only markdown string passes the endpoint
validation (it is a truthy string), so the request is not rejected; inside
create_report_pdf the emptiness check then raises the ValueError, the
fallback error document is built, and — when its build succeeds — its bytes
are returned to the caller as a file download, not as a validation
rejection. -/
theorem c10_whitespace_not_rejected
    (layout fallbackLayout : List Flowable → Except String String)
    (traceOf : String → String) (d : List (String × PyVal)) (md bts : String)
    (hd : d.isEmpty = false)
    (hmd : pyGet d "markdown_text" PyVal.none = PyVal.str md)
    (hne : md ≠ "") (hws : pyStrip md = "")
    (hfb : fallbackLayout
        (errorFlowables emptyMdMsg (nameOf d) (locationOf d) (languageOf d)
          (traceOf emptyMdMsg)) = .ok bts) :
    download_pdf layout fallbackLayout traceOf d = .file bts (filenameOf d) := by
  unfold download_pdf
  have hpass : (!(pyGet d "markdown_text" PyVal.none).truthy ||
      !(pyGet d "markdown_text" PyVal.none).isStr) = false := by
    rw [hmd]
    simp [PyVal.truthy, PyVal.isStr, hne]
  simp only [hd, Bool.false_eq_true, if_false, hpass, if_pos]
  have hprim : primaryResult layout md (nameOf d) (locationOf d) (languageOf d) =
      .error emptyMdMsg := by
    unfold primaryResult
    rw [if_pos (Or.inr hws)]
  have hcr : create_report_pdf layout fallbackLayout traceOf
      (pyGet d "markdown_text" PyVal.none).asStr (nameOf d) (locationOf d) (languageOf d) =
      bts := by
    rw [hmd]
    show create_report_pdf layout fallbackLayout traceOf md (nameOf d) (locationOf d)
      (languageOf d) = bts
    unfold create_report_pdf
    rw [hprim]
    show fallbackResult fallbackLayout traceOf emptyMdMsg (nameOf d) (locationOf d)
      (languageOf d) = bts
    unfold fallbackResult
    rw [hfb]
  rw [hcr]

/-- C5 counterexample: the input consists of the single plain line
"See the Disclaimer below.", which is not a disclaimer line (it does not
start with a disclaimer marker) and produces no Disclaimer block — yet the
last block of the output is that body paragraph, not the locale default
Disclaimer: the substring check sees the word inside the paragraph text and
suppresses the default. -/
theorem c5_counterexample :
    strStartsWith "See the Disclaimer below." "Disclaimer:" = false ∧
    strStartsWith "See the Disclaimer below." "अस्वीकरण:" = false ∧
    (createFlowables "See the Disclaimer below." "N" "L" "english").getLast? =
      some (Flowable.para "See the Disclaimer below." "CustomBody" none) ∧
    Flowable.para "See the Disclaimer below." "CustomBody" none ≠
      defaultDisclaimer "english" := by
  refine ⟨by decide, by decide, by decide, by decide⟩

/-- C5 amended: the default disclaimer is appended exactly when no
flowable's textual dump contains the substring "Disclaimer" or
"अस्वीकरण" — not when no Disclaimer block exists.  When no flowable
mentions either substring, the output ends with the locale default
Disclaimer; when any flowable mentions one (even a plain paragraph), the
document is left unchanged and no default is appended. -/
theorem c5_substring_disclaimer_gate (md name location language : String) :
    ((baseFlowables md name location language).any containsMarker = false →
      (createFlowables md name location language).getLast? =
        some (defaultDisclaimer language)) ∧
    ((baseFlowables md name location language).any containsMarker = true →
      createFlowables md name location language = baseFlowables md name location language) := by
  constructor
  · intro h
    unfold createFlowables injectDisclaimer
    rw [h]
    simp only [Bool.false_eq_true, if_false]
    rw [show baseFlowables md name location language ++
        [Flowable.spacer 20, defaultDisclaimer language] =
        (baseFlowables md name location language ++ [Flowable.spacer 20]) ++
          [defaultDisclaimer language] by rw [List.append_assoc]; rfl]
    exact List.getLast?_concat _
  · intro h
    unfold createFlowables injectDisclaimer
    rw [h]
    simp

theorem c5_substring_disclaimer_gate_witness :
    (createFlowables "Hello" "N" "L" "english").getLast? =
      some (defaultDisclaimer "english") :=
  (c5_substring_disclaimer_gate "Hello" "N" "L" "english").1 (by decide)

/-- C6 counterexample: the heading line "# **Big**" is a text-bearing
block, but its emphasis markers are not converted: the emitted heading
paragraph keeps the literal asterisks (wrapped whole in a bold tag), so the
formatter is not applied to every text-bearing block kind. -/
theorem c6_counterexample :
    Flowable.para "<b>**Big**</b>" "CustomH1" none ∈
        createFlowables "# **Big**" "N" "L" "english" ∧
    strContains "<b>**Big**</b>" "**" = true := by
  refine ⟨by decide, by decide⟩

/-- C6 amended: inline emphasis rewriting is applied to paragraphs, bullet
items, numbered items, and table cells, but not to headings or disclaimer
lines: a heading's stripped text is wrapped whole in a bold tag and a
disclaimer line whole in an italic tag, each with any asterisk markers left
literal.  The input below exercises all six text-bearing block kinds with a
bold marker pair in each. -/
theorem c6_selective_emphasis :
    createFlowables "# **h**\n**p**\n* **b**\n1. **n**\n| **c** |\n| d |\nx\nDisclaimer: **z**"
        "N" "L" "english" =
      [Flowable.para "<b>Professional Land Use Report</b>" "CustomH1" none,
       Flowable.para "<b>Prepared for: N</b>" "CustomH3" none,
       Flowable.para "<b>Location: L</b>" "CustomH3" none,
       Flowable.spacer 25,
       Flowable.para "<b>**h**</b>" "CustomH1" none,
       Flowable.para "<b>p</b>" "CustomBody" none,
       Flowable.para "<b>b</b>" "CustomBullet" (some "•"),
       Flowable.para "<b>n</b>" "CustomNumber" (some "1."),
       Flowable.table [[⟨"<b><b>c</b></b>", "TableHeader"⟩], [⟨"d", "TableBody"⟩]],
       Flowable.spacer 10,
       Flowable.para "<i>Disclaimer: **z**</i>" "CustomDisclaimer" none] := by
  decide

/-- C7: a run of N table-row lines (N at least 2) containing exactly one
separator row — every cell empty after stripping '-', ':', and spaces — and
otherwise well-formed (all non-separator rows share a positive column
count), followed by a non-table line that triggers finalization, yields
exactly one Table flowable with exactly N - 1 rows: the separator is
dropped from the buffer without closing the table and contributes no row. -/
theorem c7_separator_row_count (rows : List String) (trigger : String) (st0 : ParseState)
    (ncols : Nat)
    (hscan : st0.inTable = false)
    (hrows : ∀ r ∈ rows, isTableLine (pyStrip r) = true)
    (hsep : (rows.filter (fun r => isSeparatorCells (rowCells (pyStrip r)))).length = 1)
    (hlen : 2 ≤ rows.length)
    (hcols : ∀ r ∈ rows, isSeparatorCells (rowCells (pyStrip r)) = false →
      (rowCells (pyStrip r)).length = ncols)
    (hnc : 0 < ncols)
    (htrig1 : pyStrip trigger ≠ "") (htrig2 : isTableLine (pyStrip trigger) = false) :
    ∃ tdata : List (List Cell),
      List.foldl stepLine st0 (rows ++ [trigger]) =
        { st0 with
            inTable := false
            tableData := []
            flowables := st0.flowables ++ [Flowable.table tdata, Flowable.spacer 10] } ∧
      tdata.length = rows.length - 1 := by
  have hbuflen : ∀ b ∈ tableBuf rows, b.length = ncols := by
    intro b hb
    unfold tableBuf at hb
    obtain ⟨r, hr, rfl⟩ := List.mem_map.mp hb
    obtain ⟨hrmem, hrsep⟩ := List.mem_filter.mp hr
    rw [List.length_map]
    exact hcols r hrmem (by simpa using hrsep)
  have hpart : (rows.filter (fun r => isSeparatorCells (rowCells (pyStrip r)))).length +
      (rows.filter (fun r => !(isSeparatorCells (rowCells (pyStrip r))))).length =
      rows.length :=
    (List.length_eq_length_filter_add _).symm
  have hblen : (tableBuf rows).length = rows.length - 1 := by
    unfold tableBuf
    rw [List.length_map]
    omega
  have hfin : ∃ tdata : List (List Cell),
      finalizeTable (tableBuf rows) = [Flowable.table tdata, Flowable.spacer 10] ∧
      tdata.length = rows.length - 1 := by
    cases hbuf : tableBuf rows with
    | nil =>
      rw [hbuf] at hblen
      simp at hblen
      omega
    | cons header tail =>
      have hhead : header.length = ncols :=
        hbuflen header (hbuf ▸ List.mem_cons_self header tail)
      have hcond : (0 < header.length &&
          tail.all (fun rr => rr.length = header.length)) = true := by
        rw [hhead]
        simp only [Bool.and_eq_true, decide_eq_true_eq, List.all_eq_true]
        exact ⟨hnc, fun rr hrr => hbuflen rr (hbuf ▸ List.mem_cons_of_mem header hrr)⟩
      refine ⟨header.map boldHeaderCell :: tail, ?_, ?_⟩
      · rw [finalizeTable_cons, if_pos hcond]
      · rw [hbuf] at hblen
        simpa using hblen
  obtain ⟨r, rest, rfl⟩ : ∃ r rest, rows = r :: rest := by
    cases rows with
    | nil => simp at hlen
    | cons r rest => exact ⟨r, rest, rfl⟩
  obtain ⟨tdata, hft, htl⟩ := hfin
  refine ⟨tdata, ?_, htl⟩
  obtain ⟨fls0, td0, it0⟩ := st0
  simp only at hscan
  subst hscan
  rw [List.cons_append, List.foldl_cons,
    stepLine_table_enter _ r (hrows r (List.mem_cons_self r rest)) rfl]
  rw [List.foldl_append]
  rw [foldl_table_lines rest _ rfl (fun x hx => hrows x (List.mem_cons_of_mem r hx))]
  rw [List.foldl_cons, List.foldl_nil]
  rw [stepLine_finalize _ trigger htrig1 htrig2 rfl]
  simp only
  rw [← tableBuf_cons r rest, hft]

theorem c7_separator_row_count_witness :
    ∃ tdata : List (List Cell),
      List.foldl stepLine ⟨[], [], false⟩ (["| a | b |", "|---|---|", "| 1 | 2 |"] ++ ["x"]) =
        { ParseState.mk [] [] false with
            inTable := false
            tableData := []
            flowables := [] ++ [Flowable.table tdata, Flowable.spacer 10] } ∧
      tdata.length = (["| a | b |", "|---|---|", "| 1 | 2 |"] : List String).length - 1 :=
  c7_separator_row_count ["| a | b |", "|---|---|", "| 1 | 2 |"] "x" ⟨[], [], false⟩ 2
    rfl (by decide) (by decide) (by decide) (by decide) (by decide) (by decide) (by decide)

/-- C8: inline emphasis is resolved in exactly two passes in a fixed
order — the double-asterisk bold substitution over the raw text first, then
the single-asterisk italic substitution over its result — and on the
specimen input the produced span sequence is Bold, Plain, Italic. -/
theorem c8_two_pass_emphasis :
    boldSub "**bold** and *italic*" = "<b>bold</b> and *italic*" ∧
    formatInline "**bold** and *italic*" = italicSub (boldSub "**bold** and *italic*") ∧
    spansOfMarkup (formatInline "**bold** and *italic*") =
      [Span.bold "bold", Span.plain " and ", Span.italic "italic"] := by
  refine ⟨by decide, rfl, by decide⟩

/-- C9: for every line of the numbered-item shape — a non-empty run of
digits, a period, a space, then the rest — the classification emits a
NumberedItem paragraph whose bullet marker is exactly the literal leading
digits followed by a period (line.split('.')[0] plus "."), never
re-derived or re-sequenced, and whose text is the stripped remainder run
through the inline formatter. -/
theorem c9_literal_marker (ds rest : List Char)
    (hne : ds ≠ []) (hd : ∀ c ∈ ds, c.isDigit = true) :
    lineFlowables (String.mk (ds ++ '.' :: ' ' :: rest)) =
      [Flowable.para (formatInline (pyStrip (String.mk rest))) "CustomNumber"
        (some (String.mk (ds ++ ['.'])))] := by
  obtain ⟨d, ds0, rfl⟩ : ∃ d ds0, ds = d :: ds0 := by
    cases ds with
    | nil => exact absurd rfl hne
    | cons d ds0 => exact ⟨d, ds0, rfl⟩
  have hd0 : d.isDigit = true := hd d (List.mem_cons_self d ds0)
  have hstart : ∀ (x : Char) (xs : List Char), x.isDigit = false →
      List.isPrefixOf (x :: xs) ((d :: ds0) ++ '.' :: ' ' :: rest) = false := by
    intro x xs hx
    rw [List.cons_append]
    exact isPrefixOf_false_head x d xs _ (digit_beq_false d x hd0 hx)
  have htw : ((d :: ds0) ++ '.' :: ' ' :: rest).takeWhile Char.isDigit = d :: ds0 :=
    takeWhile_append_stop Char.isDigit (d :: ds0) (' ' :: rest) '.' hd (by decide)
  have h1 : strStartsWith (String.mk ((d :: ds0) ++ '.' :: ' ' :: rest)) "# " = false := by
    unfold strStartsWith
    rw [toList_mk]
    exact hstart '#' [' '] (by decide)
  have h2 : strStartsWith (String.mk ((d :: ds0) ++ '.' :: ' ' :: rest)) "## " = false := by
    unfold strStartsWith
    rw [toList_mk]
    exact hstart '#' ['#', ' '] (by decide)
  have h3 : strStartsWith (String.mk ((d :: ds0) ++ '.' :: ' ' :: rest)) "### " = false := by
    unfold strStartsWith
    rw [toList_mk]
    exact hstart '#' ['#', '#', ' '] (by decide)
  have h4 : strStartsWith (String.mk ((d :: ds0) ++ '.' :: ' ' :: rest)) "* " = false := by
    unfold strStartsWith
    rw [toList_mk]
    exact hstart '*' [' '] (by decide)
  have h5 : strStartsWith (String.mk ((d :: ds0) ++ '.' :: ' ' :: rest)) "- " = false := by
    unfold strStartsWith
    rw [toList_mk]
    exact hstart '-' [' '] (by decide)
  have hnum : isNumberedLine (String.mk ((d :: ds0) ++ '.' :: ' ' :: rest)) = true := by
    unfold isNumberedLine
    rw [toList_mk, htw]
    simp only [List.isEmpty_cons, Bool.not_false, Bool.true_and]
    rw [show ((d :: ds0) ++ '.' :: ' ' :: rest).drop (d :: ds0).length =
        '.' :: ' ' :: rest from List.drop_left _ _]
    simp [List.isPrefixOf]
  have hplen : numPrefixLen (String.mk ((d :: ds0) ++ '.' :: ' ' :: rest)) =
      (d :: ds0).length + 2 := by
    unfold numPrefixLen
    rw [toList_mk, htw]
  have hdrop : strDrop (String.mk ((d :: ds0) ++ '.' :: ' ' :: rest))
      ((d :: ds0).length + 2) = String.mk rest := by
    unfold strDrop
    rw [toList_mk, drop_two_after]
  have hmark : numMarker (String.mk ((d :: ds0) ++ '.' :: ' ' :: rest)) =
      String.mk ((d :: ds0) ++ ['.']) := by
    unfold numMarker
    rw [toList_mk]
    rw [takeWhile_append_stop (fun c => !(c = '.')) (d :: ds0) (' ' :: rest) '.'
      (fun c hc => by
        have : ¬(c = '.') := digit_ne c '.' (hd c hc) (by decide)
        simp [this])
      (by decide)]
    rfl
  unfold lineFlowables
  rw [h1, h2, h3, h4, h5, hnum, hplen, hdrop, hmark]
  simp

theorem c9_literal_marker_witness :
    lineFlowables (String.mk (['3'] ++ '.' :: ' ' :: "Third step".toList)) =
      [Flowable.para (formatInline (pyStrip (String.mk "Third step".toList))) "CustomNumber"
        (some (String.mk (['3'] ++ ['.'])))] ∧
    lineFlowables "3. Third step" =
      [Flowable.para "Third step" "CustomNumber" (some "3.")] :=
  ⟨c9_literal_marker ['3'] "Third step".toList (by decide) (by decide), by decide⟩

theorem c10_whitespace_not_rejected_witness :
    download_pdf (fun _ => Except.ok "P") (fun _ => Except.ok "FB") (fun _ => "tb")
      [("markdown_text", PyVal.str " ")] = .file "FB" "AI_Land_Report.pdf" :=
  c10_whitespace_not_rejected (fun _ => Except.ok "P") (fun _ => Except.ok "FB")
    (fun _ => "tb") [("markdown_text", PyVal.str " ")] " " "FB" rfl rfl (by decide) rfl rfl

end App

